import Mathlib

/-!
Shallow embedding of the go-monigo client library (package monigo).

Modelled source files: client.go (transport core), errors.go (error
taxonomy and predicates), subscriptions.go and the invoices service
(query-building facades).

Modelling conventions:
* JSON documents are represented by the inductive type Json; a response
  body is either syntactically valid JSON (carried as its parsed value;
  its raw text is recovered by Json.render) or malformed raw bytes.
* Go error values are the inductive GoError: a structured APIError, a
  plain error message, or a wrapped error as produced by the fmt.Errorf
  percent-w verb; errorsAsAPIError models errors.As unwrapping.
* Machine integers (HTTP status codes) fit well within int range, so
  they are modelled as Nat without overflow arithmetic.
* json.Unmarshal into the APIError struct is modelled field by field,
  with the Go key matching rule (case-insensitive tag match, later
  duplicate keys processed after earlier ones) and the rule that a JSON
  null leaves the target unchanged.  The model fails atomically where
  encoding/json would report an error.
-/

namespace Monigo

/-- A JSON value; numbers are restricted to integers, which covers every
payload the modelled code paths exchange. -/
inductive Json where
  | null : Json
  | bool (b : Bool) : Json
  | num (i : Int) : Json
  | str (s : String) : Json
  | arr (xs : List Json) : Json
  | obj (kvs : List (String × Json)) : Json

/-- Minimal JSON string escaping (quote and backslash), as in encoding/json
for the strings appearing in this development. -/
def escapeJsonString (s : String) : String :=
  ⟨s.data.flatMap fun c => if c = '"' ∨ c = '\\' then ['\\', c] else [c]⟩

mutual

/-- Compact rendering of a JSON value, the raw text of a well-formed body. -/
def Json.render : Json → String
  | .null => "null"
  | .bool true => "true"
  | .bool false => "false"
  | .num i => toString i
  | .str s => "\"" ++ escapeJsonString s ++ "\""
  | .arr xs => "[" ++ Json.renderArr xs ++ "]"
  | .obj kvs => "\x7b" ++ Json.renderObj kvs ++ "\x7d"

/-- Render the comma-separated elements of a JSON array. -/
def Json.renderArr : List Json → String
  | [] => ""
  | [x] => x.render
  | x :: y :: xs => x.render ++ "," ++ Json.renderArr (y :: xs)

/-- Render the comma-separated members of a JSON object. -/
def Json.renderObj : List (String × Json) → String
  | [] => ""
  | [kv] => "\"" ++ escapeJsonString kv.1 ++ "\":" ++ kv.2.render
  | kv :: kv2 :: kvs =>
      "\"" ++ escapeJsonString kv.1 ++ "\":" ++ kv.2.render ++ "," ++
        Json.renderObj (kv2 :: kvs)

end

/-- An arbitrary Go value handed to json.Marshal: either a value that
serializes to the given JSON document, or a value of a type that
encoding/json does not support (channel, function, ...). -/
inductive GoValue where
  | val (j : Json) : GoValue
  | unsupported (typeName : String) : GoValue

/-- json.Marshal on a GoValue. -/
def jsonMarshal : GoValue → Except String String
  | .val j => .ok j.render
  | .unsupported t => .error ("json: unsupported type: " ++ t)

/-- APIError from errors.go: returned when the API responds with HTTP >= 400.
StatusCode carries the json:"-" tag, Message the json:"error" tag and
Details the json:"details" tag.  The Go map is modelled as an association
list. -/
structure APIError where
  StatusCode : Nat
  Message : String
  Details : List (String × String)
deriving DecidableEq

/-- A Go error value: a structured APIError, a plain error (transport
failures, marshal failures, ...), or an error wrapped by fmt.Errorf with
the percent-w verb. -/
inductive GoError where
  | apiError (e : APIError) : GoError
  | plain (msg : String) : GoError
  | wrap (context : String) (inner : GoError) : GoError
deriving DecidableEq

/-- errors.As specialised to the APIError target: walk the wrap chain and
return the first APIError found. -/
def errorsAsAPIError : GoError → Option APIError
  | .apiError e => some e
  | .plain _ => none
  | .wrap _ inner => errorsAsAPIError inner

/-- IsNotFound from errors.go: err is an APIError with status 404.
A Go nil error is Option.none. -/
def IsNotFound (err : Option GoError) : Bool :=
  match err with
  | none => false
  | some g =>
    match errorsAsAPIError g with
    | some e => e.StatusCode == 404
    | none => false

/-- IsUnauthorized from errors.go: err is an APIError with status 401. -/
def IsUnauthorized (err : Option GoError) : Bool :=
  match err with
  | none => false
  | some g =>
    match errorsAsAPIError g with
    | some e => e.StatusCode == 401
    | none => false

/-- IsForbidden from errors.go: err is an APIError with status 403. -/
def IsForbidden (err : Option GoError) : Bool :=
  match err with
  | none => false
  | some g =>
    match errorsAsAPIError g with
    | some e => e.StatusCode == 403
    | none => false

/-- IsConflict from errors.go: err is an APIError with status 409. -/
def IsConflict (err : Option GoError) : Bool :=
  match err with
  | none => false
  | some g =>
    match errorsAsAPIError g with
    | some e => e.StatusCode == 409
    | none => false

/-- IsRateLimited from errors.go: err is an APIError with status 429. -/
def IsRateLimited (err : Option GoError) : Bool :=
  match err with
  | none => false
  | some g =>
    match errorsAsAPIError g with
    | some e => e.StatusCode == 429
    | none => false

/-- IsQuotaExceeded from errors.go: err is an APIError with status 402. -/
def IsQuotaExceeded (err : Option GoError) : Bool :=
  match err with
  | none => false
  | some g =>
    match errorsAsAPIError g with
    | some e => e.StatusCode == 402
    | none => false

/-- IsValidationError from errors.go: err is an APIError with status 400
and non-empty Details. -/
def IsValidationError (err : Option GoError) : Bool :=
  match err with
  | none => false
  | some g =>
    match errorsAsAPIError g with
    | some e => e.StatusCode == 400 && !e.Details.isEmpty
    | none => false

/-- The sorted key:value rendering fmt uses for a Go map with the percent-v
verb: map[k1:v1 k2:v2] with keys in ascending order. -/
def goFormatDetails (d : List (String × String)) : String :=
  "map[" ++
    String.intercalate " "
      ((d.mergeSort fun a b => a.1 ≤ b.1).map fun kv => kv.1 ++ ":" ++ kv.2) ++
    "]"

/-- The Error method of APIError: monigo: HTTP status: message, with the
details map appended in parentheses when non-empty. -/
def APIError.errorString (e : APIError) : String :=
  if !e.Details.isEmpty then
    "monigo: HTTP " ++ toString e.StatusCode ++ ": " ++ e.Message ++
      " (" ++ goFormatDetails e.Details ++ ")"
  else
    "monigo: HTTP " ++ toString e.StatusCode ++ ": " ++ e.Message

/-- ASCII lower-casing of an object key, as Go applies for the
case-insensitive match of a JSON key against a struct field tag. -/
def lowerKey (s : String) : String :=
  ⟨s.data.map fun c =>
    if 65 ≤ c.toNat ∧ c.toNat ≤ 90 then Char.ofNat (c.toNat + 32) else c⟩

/-- Assignment into a Go map modelled as an association list: an existing
key is overwritten in place, a new key is appended. -/
def assocSet : List (String × String) → String → String → List (String × String)
  | [], k, v => [(k, v)]
  | (k0, v0) :: rest, k, v =>
    if k0 == k then (k0, v) :: rest else (k0, v0) :: assocSet rest k v

/-- json.Unmarshal of a JSON object into a map with string values,
merging into the existing entries acc; a null member leaves the zero
string, a non-string member is a type error. -/
def stringMapInto (acc : List (String × String)) :
    List (String × Json) → Except String (List (String × String))
  | [] => .ok acc
  | (k, .str s) :: rest => stringMapInto (assocSet acc k s) rest
  | (k, .null) :: rest => stringMapInto (assocSet acc k "") rest
  | (_, _) :: _ =>
    .error "json: cannot unmarshal value into map of string"

/-- Processing of one JSON object member by json.Unmarshal into an
APIError: the member key is matched case-insensitively against the field
tags error and details (StatusCode is tagged json minus and never
matched); an unmatched key is ignored, a null value leaves the field
unchanged. -/
def unmarshalStep (acc : APIError) (k : String) (v : Json) :
    Except String APIError :=
  if lowerKey k == "error" then
    match v with
    | .str s => .ok { acc with Message := s }
    | .null => .ok acc
    | _ => .error "json: cannot unmarshal value into field Message of type string"
  else if lowerKey k == "details" then
    match v with
    | .null => .ok acc
    | .obj ds =>
      match stringMapInto acc.Details ds with
      | .ok d => .ok { acc with Details := d }
      | .error m => .error m
    | _ => .error "json: cannot unmarshal value into field Details of type map"
  else .ok acc

/-- Sequential processing of the members of a JSON object by
json.Unmarshal into an APIError. -/
def unmarshalFields (acc : APIError) :
    List (String × Json) → Except String APIError
  | [] => .ok acc
  | (k, v) :: rest =>
    match unmarshalStep acc k v with
    | .ok acc2 => unmarshalFields acc2 rest
    | .error m => .error m

/-- json.Unmarshal of a JSON document into an APIError value: an object is
processed member by member, null is a no-op, anything else is a type
error. -/
def unmarshalAPIError (acc : APIError) : Json → Except String APIError
  | .null => .ok acc
  | .obj kvs => unmarshalFields acc kvs
  | _ => .error "json: cannot unmarshal value into Go value of type monigo.APIError"

/-- A response body: either syntactically valid JSON, carried as its
parsed document, or malformed bytes (including the empty body) carried
verbatim. -/
inductive BodyContent where
  | malformed (raw : String) : BodyContent
  | wellFormed (v : Json) : BodyContent

/-- The raw text of a response body. -/
def BodyContent.rawOf : BodyContent → String
  | .malformed raw => raw
  | .wellFormed v => v.render

/-- An HTTP response as seen by do after io.ReadAll. -/
structure HTTPResponse where
  statusCode : Nat
  body : BodyContent

/-- An outgoing HTTP request built by do. -/
structure Request where
  method : String
  url : String
  headers : List (String × String)
  body : Option String

/-- What the configured http.Client returns for a request: a network-level
failure or a response. -/
inductive TransportResult where
  | netError (msg : String) : TransportResult
  | response (r : HTTPResponse) : TransportResult

/-- The client configuration read by do: API key and base URL. -/
structure ClientConfig where
  apiKey : String
  baseURL : String

/-- strings.TrimRight of a string with the cutset containing only the
slash character: remove every trailing slash. -/
def trimRightSlashes (s : String) : String :=
  ⟨((s.data.reverse.dropWhile fun c => c == '/')).reverse⟩

/-- WithBaseURL from client.go: store the base URL with trailing slashes
trimmed. -/
def withBaseURL (u : String) (c : ClientConfig) : ClientConfig :=
  { c with baseURL := trimRightSlashes u }

/-- The decode target passed to do as out: either a sink accepting any
JSON document (pointer to interface or RawMessage) or a struct or map
target accepting only a JSON object (or null, a no-op). -/
inductive OutTarget where
  | anyVal : OutTarget
  | objTarget : OutTarget

/-- Whether json.Unmarshal into the given target succeeds on the given
document. -/
def unmarshalInto : OutTarget → Json → Bool
  | .anyVal, _ => true
  | .objTarget, .obj _ => true
  | .objTarget, .null => true
  | .objTarget, _ => false

/-- json.Unmarshal of a success body into the decode target: a malformed
body is a syntax error, a well-formed body succeeds exactly when the
target accepts its shape. -/
def decodeBody (sh : OutTarget) : BodyContent → Except String Json
  | .malformed _ => .error "invalid character in JSON input"
  | .wellFormed v =>
    if unmarshalInto sh v then .ok v
    else .error "json: cannot unmarshal value into decode target"

/-- The outcome of do: a Go error value, or success together with the
document decoded into out (none when nothing was decoded). -/
inductive DoResult where
  | goError (e : GoError) : DoResult
  | ok (decoded : Option Json) : DoResult

/-- Request construction in do: target baseURL concatenated with path, the
three fixed headers, and the serialized body when present.  Construction
of a syntactically valid request never fails, so the
http.NewRequestWithContext error branch is not reachable in this model. -/
def buildRequest (cfg : ClientConfig) (method path : String)
    (bodyStr : Option String) : Request :=
  { method := method
    url := cfg.baseURL ++ path
    headers :=
      [("Authorization", "Bearer " ++ cfg.apiKey),
       ("Content-Type", "application/json"),
       ("Accept", "application/json")]
    body := bodyStr }

/-- The part of do after body serialization: build the request, send it,
and classify the outcome.  The second component collects every request
do constructed. -/
def doSend (cfg : ClientConfig) (method path : String)
    (bodyStr : Option String) (out : Option OutTarget)
    (transport : Request → TransportResult) : DoResult × List Request :=
  match transport (buildRequest cfg method path bodyStr) with
  | .netError m =>
    (.goError (.wrap "monigo: execute request" (.plain m)),
     [buildRequest cfg method path bodyStr])
  | .response r =>
    if 400 ≤ r.statusCode then
      (.goError (.apiError
        (match r.body with
         | .malformed raw => { StatusCode := r.statusCode, Message := raw, Details := [] }
         | .wellFormed v =>
           match unmarshalAPIError { StatusCode := r.statusCode, Message := "", Details := [] } v with
           | .ok e => e
           | .error _ => { StatusCode := r.statusCode, Message := v.render, Details := [] })),
       [buildRequest cfg method path bodyStr])
    else
      match out with
      | none => (.ok none, [buildRequest cfg method path bodyStr])
      | some sh =>
        if r.body.rawOf == "" then (.ok none, [buildRequest cfg method path bodyStr])
        else
          match decodeBody sh r.body with
          | .ok j => (.ok (some j), [buildRequest cfg method path bodyStr])
          | .error m =>
            (.goError (.wrap "monigo: decode response" (.plain m)),
             [buildRequest cfg method path bodyStr])

/-- do from client.go: serialize the body when present (a serialization
failure aborts before the request is built), then send and classify. -/
def doRequest (cfg : ClientConfig) (method path : String)
    (body : Option GoValue) (out : Option OutTarget)
    (transport : Request → TransportResult) : DoResult × List Request :=
  match body with
  | none => doSend cfg method path none out transport
  | some v =>
    match jsonMarshal v with
    | .error m => (.goError (.wrap "monigo: marshal request body" (.plain m)), [])
    | .ok s => doSend cfg method path (some s) out transport

/-- Serialization of the optional request body, as performed by the first
step of do. -/
def marshalBody : Option GoValue → Except String (Option String)
  | none => .ok none
  | some v =>
    match jsonMarshal v with
    | .ok s => .ok (some s)
    | .error m => .error m

/-- An uppercase hexadecimal digit. -/
def hexDigitChar (n : Nat) : Char :=
  if n < 10 then Char.ofNat (48 + n) else Char.ofNat (55 + n)

/-- Whether net/url leaves a byte unescaped in a query component:
alphanumerics and the four unreserved marks. -/
def queryUnescapedByte (b : Nat) : Bool :=
  (65 ≤ b && b ≤ 90) || (97 ≤ b && b ≤ 122) || (48 ≤ b && b ≤ 57) ||
    b == 45 || b == 46 || b == 95 || b == 126

/-- Escaping of one UTF-8 byte in a query component: unreserved bytes pass
through, space becomes plus, everything else is percent-encoded. -/
def escapeQueryByte (b : Nat) : List Char :=
  if queryUnescapedByte b then [Char.ofNat b]
  else if b == 32 then ['+']
  else ['%', hexDigitChar (b / 16), hexDigitChar (b % 16)]

/-- url.QueryEscape from net/url, applied to the UTF-8 bytes of the
string. -/
def queryEscape (s : String) : String :=
  ⟨(s.data.flatMap fun c => (String.utf8EncodeChar c).map UInt8.toNat).flatMap
      escapeQueryByte⟩

/-- url.Values.Encode on an association list whose keys are already in the
ascending order Encode emits (Encode iterates the keys sorted). -/
def urlValuesEncode (q : List (String × String)) : String :=
  String.intercalate "&" (q.map fun kv => queryEscape kv.1 ++ "=" ++ queryEscape kv.2)

/-- ListSubscriptionsParams from subscriptions.go; the zero value of every
field is the empty string. -/
structure ListSubscriptionsParams where
  CustomerID : String := ""
  PlanID : String := ""
  Status : String := ""

/-- The url.Values assembled by SubscriptionService.List: each filter is
set only when non-empty.  The three possible keys are listed in the
ascending key order url.Values.Encode iterates, so this list is exactly
the encoded sequence. -/
def subscriptionsListQuery (p : ListSubscriptionsParams) : List (String × String) :=
  (if p.CustomerID ≠ "" then [("customer_id", p.CustomerID)] else []) ++
  (if p.PlanID ≠ "" then [("plan_id", p.PlanID)] else []) ++
  (if p.Status ≠ "" then [("status", p.Status)] else [])

/-- The request path built by SubscriptionService.List: the query string
is appended only when at least one filter was set. -/
def subscriptionsListPath (p : ListSubscriptionsParams) : String :=
  let q := subscriptionsListQuery p
  if 0 < q.length then "/v1/subscriptions" ++ "?" ++ urlValuesEncode q
  else "/v1/subscriptions"

/-- ListInvoicesParams from the invoices service; the zero value of every
field is the empty string. -/
structure ListInvoicesParams where
  Status : String := ""
  CustomerID : String := ""

/-- The url.Values assembled by InvoiceService.List (status is set first
in the source, but Encode iterates keys in ascending order, so
customer_id comes first in the encoded sequence). -/
def invoicesListQuery (p : ListInvoicesParams) : List (String × String) :=
  (if p.CustomerID ≠ "" then [("customer_id", p.CustomerID)] else []) ++
  (if p.Status ≠ "" then [("status", p.Status)] else [])

/-- The request path built by InvoiceService.List. -/
def invoicesListPath (p : ListInvoicesParams) : String :=
  let q := invoicesListQuery p
  if 0 < q.length then "/v1/invoices" ++ "?" ++ urlValuesEncode q
  else "/v1/invoices"

/-- A Go error holding an APIError with the given status, message and
details, as produced by do for a failed call. -/
def apiErrOf (c : Nat) (m : String) (d : List (String × String)) : Option GoError :=
  some (.apiError ⟨c, m, d⟩)

/-- C2: each status among 401, 402, 403, 404, 409, 429 and
400-with-details is matched by exactly its own predicate, the other six
return false; 400 with empty details is matched by no predicate, and
IsValidationError holds exactly when the status is 400 and the details
are non-empty. -/
theorem errors_C2 (m : String) (d : List (String × String)) :
    (IsUnauthorized (apiErrOf 401 m d) = true ∧
     IsQuotaExceeded (apiErrOf 401 m d) = false ∧
     IsForbidden (apiErrOf 401 m d) = false ∧
     IsNotFound (apiErrOf 401 m d) = false ∧
     IsConflict (apiErrOf 401 m d) = false ∧
     IsRateLimited (apiErrOf 401 m d) = false ∧
     IsValidationError (apiErrOf 401 m d) = false) ∧
    (IsQuotaExceeded (apiErrOf 402 m d) = true ∧
     IsUnauthorized (apiErrOf 402 m d) = false ∧
     IsForbidden (apiErrOf 402 m d) = false ∧
     IsNotFound (apiErrOf 402 m d) = false ∧
     IsConflict (apiErrOf 402 m d) = false ∧
     IsRateLimited (apiErrOf 402 m d) = false ∧
     IsValidationError (apiErrOf 402 m d) = false) ∧
    (IsForbidden (apiErrOf 403 m d) = true ∧
     IsUnauthorized (apiErrOf 403 m d) = false ∧
     IsQuotaExceeded (apiErrOf 403 m d) = false ∧
     IsNotFound (apiErrOf 403 m d) = false ∧
     IsConflict (apiErrOf 403 m d) = false ∧
     IsRateLimited (apiErrOf 403 m d) = false ∧
     IsValidationError (apiErrOf 403 m d) = false) ∧
    (IsNotFound (apiErrOf 404 m d) = true ∧
     IsUnauthorized (apiErrOf 404 m d) = false ∧
     IsQuotaExceeded (apiErrOf 404 m d) = false ∧
     IsForbidden (apiErrOf 404 m d) = false ∧
     IsConflict (apiErrOf 404 m d) = false ∧
     IsRateLimited (apiErrOf 404 m d) = false ∧
     IsValidationError (apiErrOf 404 m d) = false) ∧
    (IsConflict (apiErrOf 409 m d) = true ∧
     IsUnauthorized (apiErrOf 409 m d) = false ∧
     IsQuotaExceeded (apiErrOf 409 m d) = false ∧
     IsForbidden (apiErrOf 409 m d) = false ∧
     IsNotFound (apiErrOf 409 m d) = false ∧
     IsRateLimited (apiErrOf 409 m d) = false ∧
     IsValidationError (apiErrOf 409 m d) = false) ∧
    (IsRateLimited (apiErrOf 429 m d) = true ∧
     IsUnauthorized (apiErrOf 429 m d) = false ∧
     IsQuotaExceeded (apiErrOf 429 m d) = false ∧
     IsForbidden (apiErrOf 429 m d) = false ∧
     IsNotFound (apiErrOf 429 m d) = false ∧
     IsConflict (apiErrOf 429 m d) = false ∧
     IsValidationError (apiErrOf 429 m d) = false) ∧
    (d ≠ [] →
     IsValidationError (apiErrOf 400 m d) = true ∧
     IsUnauthorized (apiErrOf 400 m d) = false ∧
     IsQuotaExceeded (apiErrOf 400 m d) = false ∧
     IsForbidden (apiErrOf 400 m d) = false ∧
     IsNotFound (apiErrOf 400 m d) = false ∧
     IsConflict (apiErrOf 400 m d) = false ∧
     IsRateLimited (apiErrOf 400 m d) = false) ∧
    (IsValidationError (apiErrOf 400 m []) = false ∧
     IsUnauthorized (apiErrOf 400 m []) = false ∧
     IsQuotaExceeded (apiErrOf 400 m []) = false ∧
     IsForbidden (apiErrOf 400 m []) = false ∧
     IsNotFound (apiErrOf 400 m []) = false ∧
     IsConflict (apiErrOf 400 m []) = false ∧
     IsRateLimited (apiErrOf 400 m []) = false) ∧
    (∀ (c : Nat) (d2 : List (String × String)),
      IsValidationError (apiErrOf c m d2) = true ↔ c = 400 ∧ d2 ≠ []) := by
  refine ⟨?_, ?_, ?_, ?_, ?_, ?_, fun hd => ?_, ?_, ?_⟩ <;>
    simp [apiErrOf, IsUnauthorized, IsQuotaExceeded, IsForbidden, IsNotFound,
      IsConflict, IsRateLimited, IsValidationError, errorsAsAPIError] <;>
    simp [hd]

/-- C2 witness: a 401 APIError with empty details satisfies IsUnauthorized,
and at status 400 with a one-entry details map IsValidationError returns
true. -/
theorem errors_C2_witness :
    IsUnauthorized (apiErrOf 401 "e" []) = true ∧
    IsValidationError (apiErrOf 400 "e" [("email", "invalid")]) = true :=
  ⟨(errors_C2 "e" ([] : List (String × String))).1.1,
   ((errors_C2 "e" [("email", "invalid")]).2.2.2.2.2.2.1 (by decide)).1⟩

/-- C3: every predicate is total and returns false on a nil error, on any
error value holding no APIError in its wrap chain, and on an APIError
whose status code differs from the predicate's code. -/
theorem errors_C3 :
    (IsNotFound none = false ∧ IsUnauthorized none = false ∧
     IsForbidden none = false ∧ IsConflict none = false ∧
     IsRateLimited none = false ∧ IsQuotaExceeded none = false ∧
     IsValidationError none = false) ∧
    (∀ g : GoError, errorsAsAPIError g = none →
      IsNotFound (some g) = false ∧ IsUnauthorized (some g) = false ∧
      IsForbidden (some g) = false ∧ IsConflict (some g) = false ∧
      IsRateLimited (some g) = false ∧ IsQuotaExceeded (some g) = false ∧
      IsValidationError (some g) = false) ∧
    (∀ msg : String, errorsAsAPIError (.plain msg) = none) ∧
    (∀ (c : String) (msg : String),
      errorsAsAPIError (.wrap c (.plain msg)) = none) ∧
    (∀ e : APIError,
      (e.StatusCode ≠ 404 → IsNotFound (some (.apiError e)) = false) ∧
      (e.StatusCode ≠ 401 → IsUnauthorized (some (.apiError e)) = false) ∧
      (e.StatusCode ≠ 403 → IsForbidden (some (.apiError e)) = false) ∧
      (e.StatusCode ≠ 409 → IsConflict (some (.apiError e)) = false) ∧
      (e.StatusCode ≠ 429 → IsRateLimited (some (.apiError e)) = false) ∧
      (e.StatusCode ≠ 402 → IsQuotaExceeded (some (.apiError e)) = false) ∧
      (e.StatusCode ≠ 400 → IsValidationError (some (.apiError e)) = false)) := by
  refine ⟨?_, ?_, ?_, ?_, ?_⟩
  · simp [IsNotFound, IsUnauthorized, IsForbidden, IsConflict, IsRateLimited,
      IsQuotaExceeded, IsValidationError]
  · intro g hg
    simp [IsNotFound, IsUnauthorized, IsForbidden, IsConflict, IsRateLimited,
      IsQuotaExceeded, IsValidationError, hg]
  · intro msg; rfl
  · intro c msg; rfl
  · intro e
    refine ⟨?_, ?_, ?_, ?_, ?_, ?_, ?_⟩ <;>
      intro hne <;>
      simp [IsNotFound, IsUnauthorized, IsForbidden, IsConflict, IsRateLimited,
        IsQuotaExceeded, IsValidationError, errorsAsAPIError, hne]

/-- C3 witness: a plain transport error and a 500 APIError are both
rejected by IsNotFound. -/
theorem errors_C3_witness :
    IsNotFound (some (.apiError ⟨500, "boom", []⟩)) = false :=
  ((errors_C3.2.2.2.2 ⟨500, "boom", []⟩).1) (by decide)

/-- s contains t as a contiguous substring. -/
def containsStr (s t : String) : Prop :=
  ∃ a b : List Char, s.data = a ++ t.data ++ b

/-- C6: the Error string of an APIError contains the HTTP status code and
the server-supplied message verbatim, and contains the full rendered
details map whenever the details are non-empty. -/
theorem errors_C6 (e : APIError) :
    containsStr (APIError.errorString e) (toString e.StatusCode) ∧
    containsStr (APIError.errorString e) e.Message ∧
    (e.Details ≠ [] →
      containsStr (APIError.errorString e) (goFormatDetails e.Details)) := by
  rcases hD : e.Details with _ | ⟨kv, rest⟩
  · refine ⟨⟨("monigo: HTTP ").data,
        (": ").data ++ e.Message.data, ?_⟩,
      ⟨("monigo: HTTP ").data ++ (toString e.StatusCode).data ++ (": ").data,
        [], ?_⟩, ?_⟩
    · simp [APIError.errorString, hD, String.data_append]
    · simp [APIError.errorString, hD, String.data_append]
    · intro h; exact absurd rfl h
  · refine ⟨⟨("monigo: HTTP ").data,
        (": ").data ++ e.Message.data ++ (" (").data ++
          (goFormatDetails (kv :: rest)).data ++ (")").data, ?_⟩,
      ⟨("monigo: HTTP ").data ++ (toString e.StatusCode).data ++ (": ").data,
        (" (").data ++ (goFormatDetails (kv :: rest)).data ++ (")").data, ?_⟩,
      fun _ =>
        ⟨("monigo: HTTP ").data ++ (toString e.StatusCode).data ++ (": ").data ++
           e.Message.data ++ (" (").data, (")").data, ?_⟩⟩ <;>
    simp [APIError.errorString, hD, String.data_append]

/-- C6 witness: a 422 validation error with one details entry has an
Error string containing the status, the message and the full details
map. -/
theorem errors_C6_witness :
    containsStr (APIError.errorString ⟨422, "bad", [("email", "invalid")]⟩)
      (goFormatDetails [("email", "invalid")]) :=
  (errors_C6 ⟨422, "bad", [("email", "invalid")]⟩).2.2 (by decide)

/-- C7: a filter appears in a list query exactly when it was set to a
non-empty value; with no filters the path has no query string; with
customer and status filters set the query string holds exactly those two
parameters, for both SubscriptionService.List and InvoiceService.List. -/
theorem facades_C7 :
    (∀ (p : ListSubscriptionsParams) (v : String),
      (("customer_id", v) ∈ subscriptionsListQuery p ↔ p.CustomerID = v ∧ v ≠ "") ∧
      (("plan_id", v) ∈ subscriptionsListQuery p ↔ p.PlanID = v ∧ v ≠ "") ∧
      (("status", v) ∈ subscriptionsListQuery p ↔ p.Status = v ∧ v ≠ "")) ∧
    subscriptionsListPath ⟨"", "", ""⟩ = "/v1/subscriptions" ∧
    (∀ cid st : String, cid ≠ "" → st ≠ "" →
      subscriptionsListQuery ⟨cid, "", st⟩ = [("customer_id", cid), ("status", st)]) ∧
    subscriptionsListPath ⟨"cust-abc", "", "active"⟩ =
      "/v1/subscriptions?customer_id=cust-abc&status=active" ∧
    (∀ (p : ListInvoicesParams) (v : String),
      (("customer_id", v) ∈ invoicesListQuery p ↔ p.CustomerID = v ∧ v ≠ "") ∧
      (("status", v) ∈ invoicesListQuery p ↔ p.Status = v ∧ v ≠ "")) ∧
    invoicesListPath ⟨"", ""⟩ = "/v1/invoices" ∧
    invoicesListPath ⟨"active", "cust-abc"⟩ =
      "/v1/invoices?customer_id=cust-abc&status=active" := by
  refine ⟨?_, by decide, ?_, by decide, ?_, by decide, by decide⟩
  · rintro ⟨cid, pid, st⟩ v
    refine ⟨?_, ?_, ?_⟩ <;>
      by_cases hc : cid = "" <;> by_cases hp : pid = "" <;> by_cases hs : st = "" <;>
        simp_all [subscriptionsListQuery] <;> aesop
  · intro cid st hc hs
    simp [subscriptionsListQuery, hc, hs]
  · rintro ⟨st, cid⟩ v
    refine ⟨?_, ?_⟩ <;>
      by_cases hc : cid = "" <;> by_cases hs : st = "" <;>
        simp_all [invoicesListQuery] <;> aesop

/-- C7 witness: with customer and status set (plan unset), the
subscriptions list query holds exactly those two parameters. -/
theorem facades_C7_witness :
    subscriptionsListQuery ⟨"cust-abc", "", "active"⟩ =
      [("customer_id", "cust-abc"), ("status", "active")] :=
  facades_C7.2.2.1 "cust-abc" "active" (by decide) (by decide)

/-- One unmarshal step never changes the StatusCode field (it carries the
json minus tag and is never populated from the body). -/
theorem unmarshalStep_statusCode (acc : APIError) (k : String) (v : Json)
    (e : APIError) (h : unmarshalStep acc k v = .ok e) :
    e.StatusCode = acc.StatusCode := by
  unfold unmarshalStep at h
  repeat' split at h
  all_goals first | (injection h with h2; subst h2; rfl) | injection h

/-- Processing the members of an error body never changes StatusCode. -/
theorem unmarshalFields_statusCode (kvs : List (String × Json)) :
    ∀ (acc e : APIError), unmarshalFields acc kvs = .ok e →
      e.StatusCode = acc.StatusCode := by
  induction kvs with
  | nil => intro acc e h; simp [unmarshalFields] at h; simp [h]
  | cons kv rest ih =>
    intro acc e h
    rw [unmarshalFields] at h
    rcases hs : unmarshalStep acc kv.1 kv.2 with m | acc2 <;> rw [hs] at h
    · cases h
    · exact (ih acc2 e h).trans (unmarshalStep_statusCode acc kv.1 kv.2 acc2 hs)

/-- json.Unmarshal into an APIError never changes StatusCode. -/
theorem unmarshalAPIError_statusCode (acc : APIError) (v : Json) (e : APIError)
    (h : unmarshalAPIError acc v = .ok e) : e.StatusCode = acc.StatusCode := by
  cases v <;> simp_all [unmarshalAPIError]
  exact unmarshalFields_statusCode _ acc e h

/-- After a response with status at least 400, doSend returns an APIError
carrying that status. -/
theorem doSend_api (cfg : ClientConfig) (method path : String)
    (bs : Option String) (out : Option OutTarget)
    (transport : Request → TransportResult) (r : HTTPResponse)
    (ht : transport (buildRequest cfg method path bs) = .response r)
    (h4 : 400 ≤ r.statusCode) :
    ∃ e : APIError,
      (doSend cfg method path bs out transport).1 = .goError (.apiError e) ∧
      e.StatusCode = r.statusCode := by
  unfold doSend
  rw [ht]
  dsimp only
  rw [if_pos h4]
  rcases hb : r.body with raw | v
  · exact ⟨_, rfl, rfl⟩
  · dsimp only
    rcases hu : unmarshalAPIError ⟨r.statusCode, "", []⟩ v with m | e
    · exact ⟨_, rfl, rfl⟩
    · exact ⟨e, rfl, unmarshalAPIError_statusCode _ v e hu⟩

/-- When body serialization succeeds, do reduces to the send phase. -/
theorem doRequest_eq_doSend (cfg : ClientConfig) (method path : String)
    (body : Option GoValue) (bs : Option String) (out : Option OutTarget)
    (transport : Request → TransportResult)
    (hm : marshalBody body = .ok bs) :
    doRequest cfg method path body out transport =
      doSend cfg method path bs out transport := by
  cases body with
  | none => simp [marshalBody] at hm; simp [doRequest, hm]
  | some v =>
    rcases hj : jsonMarshal v with m | s
    · simp [marshalBody, hj] at hm
    · simp [marshalBody, hj] at hm
      simp [doRequest, hj, hm]

/-- C1 (amended): every response whose status is at least 400 is returned
by do as exactly one structured APIError whose StatusCode equals the
HTTP status, never as success and never as a local or transport error. -/
theorem client_C1 (cfg : ClientConfig) (method path : String)
    (body : Option GoValue) (bs : Option String) (out : Option OutTarget)
    (transport : Request → TransportResult) (r : HTTPResponse)
    (hm : marshalBody body = .ok bs)
    (ht : transport (buildRequest cfg method path bs) = .response r)
    (h4 : 400 ≤ r.statusCode) :
    ∃ e : APIError,
      (doRequest cfg method path body out transport).1 = .goError (.apiError e) ∧
      e.StatusCode = r.statusCode := by
  rw [doRequest_eq_doSend cfg method path body bs out transport hm]
  exact doSend_api cfg method path bs out transport r ht h4

/-- C1 witness: a 404 with a malformed body yields an APIError with
StatusCode 404. -/
theorem client_C1_witness :
    ∃ e : APIError,
      (doRequest ⟨"k", "https://api.monigo.co"⟩ "GET" "/v1/x" none none
          (fun _ => .response ⟨404, .malformed "not found"⟩)).1 =
        .goError (.apiError e) ∧
      e.StatusCode = 404 :=
  client_C1 ⟨"k", "https://api.monigo.co"⟩ "GET" "/v1/x" none none none
    (fun _ => .response ⟨404, .malformed "not found"⟩)
    ⟨404, .malformed "not found"⟩ rfl rfl (by decide)

/-- C1 counterexample: a 300 response is not in the 2xx range, yet do
returns success rather than an APIError, so the claim as stated over all
non-2xx statuses fails; the code only classifies statuses at least
400. -/
theorem client_C1_counterexample :
    (doRequest ⟨"k", "https://api.monigo.co"⟩ "GET" "/v1/things" none none
        (fun _ => .response ⟨300, .malformed "redirect"⟩)).1 = .ok none ∧
    ¬(200 ≤ 300 ∧ 300 ≤ 299) :=
  ⟨rfl, by decide⟩

/-- C4: a body whose serialization fails makes do return the wrapped
marshal error, which is neither an APIError nor the transport error
wrap, and no request is built or sent. -/
theorem client_C4 (cfg : ClientConfig) (method path t : String)
    (out : Option OutTarget) (transport : Request → TransportResult) :
    doRequest cfg method path (some (.unsupported t)) out transport =
      (.goError (.wrap "monigo: marshal request body"
        (.plain ("json: unsupported type: " ++ t))), []) ∧
    errorsAsAPIError (.wrap "monigo: marshal request body"
        (.plain ("json: unsupported type: " ++ t))) = none ∧
    "monigo: marshal request body" ≠ "monigo: execute request" :=
  ⟨rfl, rfl, by decide⟩

/-- C4 witness: marshalling a channel-typed body aborts with the local
marshal error and an empty list of built requests. -/
theorem client_C4_witness :
    doRequest ⟨"k", "https://api.monigo.co"⟩ "POST" "/v1/ingest"
        (some (.unsupported "chan int")) none (fun _ => .netError "unused") =
      (.goError (.wrap "monigo: marshal request body"
        (.plain ("json: unsupported type: " ++ "chan int"))), []) :=
  (client_C4 ⟨"k", "https://api.monigo.co"⟩ "POST" "/v1/ingest" "chan int"
    none (fun _ => .netError "unused")).1

/-- C5: on a 2xx response, a supplied decode target with a non-empty body
is decoded, a decode failure is a local non-API error, and an empty body
or an absent target succeeds without decoding. -/
theorem client_C5 (cfg : ClientConfig) (method path : String) (sh : OutTarget)
    (transport : Request → TransportResult) (r : HTTPResponse)
    (ht : transport (buildRequest cfg method path none) = .response r)
    (h2a : 200 ≤ r.statusCode) (h2b : r.statusCode ≤ 299) :
    (∀ j : Json, r.body.rawOf ≠ "" → decodeBody sh r.body = .ok j →
      (doRequest cfg method path none (some sh) transport).1 = .ok (some j)) ∧
    (∀ m : String, r.body.rawOf ≠ "" → decodeBody sh r.body = .error m →
      (doRequest cfg method path none (some sh) transport).1 =
        .goError (.wrap "monigo: decode response" (.plain m)) ∧
      errorsAsAPIError (.wrap "monigo: decode response" (.plain m)) = none) ∧
    (r.body.rawOf = "" →
      (doRequest cfg method path none (some sh) transport).1 = .ok none) ∧
    (doRequest cfg method path none none transport).1 = .ok none := by
  have hno : ¬ 400 ≤ r.statusCode := by omega
  refine ⟨?_, ?_, ?_, ?_⟩
  · intro j hraw hdec
    show (doSend cfg method path none (some sh) transport).1 = .ok (some j)
    unfold doSend
    rw [ht]
    try dsimp only
    rw [if_neg hno]
    try dsimp only
    rw [if_neg (by simpa using hraw), hdec]
  · intro m hraw hdec
    refine ⟨?_, rfl⟩
    show (doSend cfg method path none (some sh) transport).1 =
      .goError (.wrap "monigo: decode response" (.plain m))
    unfold doSend
    rw [ht]
    try dsimp only
    rw [if_neg hno]
    try dsimp only
    rw [if_neg (by simpa using hraw), hdec]
  · intro hraw
    show (doSend cfg method path none (some sh) transport).1 = .ok none
    unfold doSend
    rw [ht]
    try dsimp only
    rw [if_neg hno]
    try dsimp only
    rw [if_pos (by simpa using hraw)]
  · show (doSend cfg method path none none transport).1 = .ok none
    unfold doSend
    rw [ht]
    try dsimp only
    rw [if_neg hno]

/-- C5 witness: a 200 response with an object body decodes into the
supplied target. -/
theorem client_C5_witness :
    (doRequest ⟨"k", "https://api.monigo.co"⟩ "GET" "/v1/plans" none
        (some .anyVal)
        (fun _ => .response ⟨200, .wellFormed (.obj [("plans", .arr [])])⟩)).1 =
      .ok (some (.obj [("plans", .arr [])])) :=
  (client_C5 ⟨"k", "https://api.monigo.co"⟩ "GET" "/v1/plans" .anyVal
      (fun _ => .response ⟨200, .wellFormed (.obj [("plans", .arr [])])⟩)
      ⟨200, .wellFormed (.obj [("plans", .arr [])])⟩ rfl (by decide) (by decide)).1
    (.obj [("plans", .arr [])]) (by decide) rfl

/-- The list of requests doSend records is exactly the one built
request. -/
theorem doSend_built (cfg : ClientConfig) (method path : String)
    (bs : Option String) (out : Option OutTarget)
    (transport : Request → TransportResult) :
    (doSend cfg method path bs out transport).2 =
      [buildRequest cfg method path bs] := by
  unfold doSend
  rcases transport (buildRequest cfg method path bs) with m | r
  · rfl
  · dsimp only
    repeat' split
    all_goals rfl

/-- C8: every request do builds carries the bearer Authorization header,
the JSON Accept header, and the JSON Content-Type header. -/
theorem client_C8 (cfg : ClientConfig) (method path : String)
    (body : Option GoValue) (out : Option OutTarget)
    (transport : Request → TransportResult) (req : Request)
    (hreq : req ∈ (doRequest cfg method path body out transport).2) :
    ("Authorization", "Bearer " ++ cfg.apiKey) ∈ req.headers ∧
    ("Accept", "application/json") ∈ req.headers ∧
    ("Content-Type", "application/json") ∈ req.headers := by
  have hb : ∃ bs, req = buildRequest cfg method path bs := by
    cases body with
    | none =>
      rw [show doRequest cfg method path none out transport =
            doSend cfg method path none out transport from rfl,
          doSend_built] at hreq
      exact ⟨none, List.mem_singleton.mp hreq⟩
    | some v =>
      rcases hj : jsonMarshal v with m | s
      · unfold doRequest at hreq
        dsimp only at hreq
        rw [hj] at hreq
        simp at hreq
      · unfold doRequest at hreq
        dsimp only at hreq
        rw [hj, doSend_built] at hreq
        exact ⟨some s, List.mem_singleton.mp hreq⟩
  obtain ⟨bs, rfl⟩ := hb
  refine ⟨?_, ?_, ?_⟩ <;> simp [buildRequest]

/-- C8 witness: the request built for a bodyless GET carries all three
headers. -/
theorem client_C8_witness :
    ("Authorization", "Bearer " ++ "k") ∈
        (buildRequest ⟨"k", "https://api.monigo.co"⟩ "GET" "/v1/metrics" none).headers ∧
    ("Accept", "application/json") ∈
        (buildRequest ⟨"k", "https://api.monigo.co"⟩ "GET" "/v1/metrics" none).headers ∧
    ("Content-Type", "application/json") ∈
        (buildRequest ⟨"k", "https://api.monigo.co"⟩ "GET" "/v1/metrics" none).headers := by
  have h := client_C8 ⟨"k", "https://api.monigo.co"⟩ "GET" "/v1/metrics" none none
    (fun _ => .response ⟨200, .malformed ""⟩)
    (buildRequest ⟨"k", "https://api.monigo.co"⟩ "GET" "/v1/metrics" none)
    (by rw [show (doRequest ⟨"k", "https://api.monigo.co"⟩ "GET" "/v1/metrics" none none
          (fun _ => .response ⟨200, .malformed ""⟩)).2 =
            [buildRequest ⟨"k", "https://api.monigo.co"⟩ "GET" "/v1/metrics" none] from rfl]
        exact List.mem_singleton.mpr rfl)
  exact h

/-- One unmarshal step on a member whose key does not match the error tag
leaves Message unchanged. -/
theorem unmarshalStep_message (acc : APIError) (k : String) (v : Json)
    (e : APIError) (hk : lowerKey k ≠ "error")
    (h : unmarshalStep acc k v = .ok e) : e.Message = acc.Message := by
  unfold unmarshalStep at h
  repeat' split at h
  all_goals first
    | (injection h with h2; subst h2; rfl)
    | (exact absurd (by simpa using (by assumption : (lowerKey k == "error") = true)) hk)
    | injection h

/-- One unmarshal step on a member whose key does not match the details
tag leaves Details unchanged. -/
theorem unmarshalStep_details (acc : APIError) (k : String) (v : Json)
    (e : APIError) (hk : lowerKey k ≠ "details")
    (h : unmarshalStep acc k v = .ok e) : e.Details = acc.Details := by
  unfold unmarshalStep at h
  repeat' split at h
  all_goals first
    | (injection h with h2; subst h2; rfl)
    | (exact absurd (by simpa using (by assumption : (lowerKey k == "details") = true)) hk)
    | injection h

/-- Processing members none of which matches the error tag leaves Message
unchanged. -/
theorem unmarshalFields_message (kvs : List (String × Json)) :
    ∀ acc e : APIError, (∀ kv ∈ kvs, lowerKey kv.1 ≠ "error") →
      unmarshalFields acc kvs = .ok e → e.Message = acc.Message := by
  induction kvs with
  | nil => intro acc e _ h; simp [unmarshalFields] at h; simp [h]
  | cons kv rest ih =>
    intro acc e hk h
    rw [unmarshalFields] at h
    rcases hs : unmarshalStep acc kv.1 kv.2 with m | acc2 <;> rw [hs] at h
    · cases h
    · exact (ih acc2 e (fun kv2 h2 => hk kv2 (List.mem_cons_of_mem kv h2)) h).trans
        (unmarshalStep_message acc kv.1 kv.2 acc2 (hk kv (List.mem_cons_self kv rest)) hs)

/-- Processing members none of which matches the details tag leaves
Details unchanged. -/
theorem unmarshalFields_details (kvs : List (String × Json)) :
    ∀ acc e : APIError, (∀ kv ∈ kvs, lowerKey kv.1 ≠ "details") →
      unmarshalFields acc kvs = .ok e → e.Details = acc.Details := by
  induction kvs with
  | nil => intro acc e _ h; simp [unmarshalFields] at h; simp [h]
  | cons kv rest ih =>
    intro acc e hk h
    rw [unmarshalFields] at h
    rcases hs : unmarshalStep acc kv.1 kv.2 with m | acc2 <;> rw [hs] at h
    · cases h
    · exact (ih acc2 e (fun kv2 h2 => hk kv2 (List.mem_cons_of_mem kv h2)) h).trans
        (unmarshalStep_details acc kv.1 kv.2 acc2 (hk kv (List.mem_cons_self kv rest)) hs)

/-- C9: on a status at least 400 whose body is a valid JSON object
accepted by the error-shape unmarshal, do returns the unmarshalled
APIError: with no member matching the error key its Message is empty, and
with no member matching the details key its Details are empty; the
raw-body fallback fires exactly in the malformed-body case. -/
theorem client_C9 (cfg : ClientConfig) (method path : String)
    (out : Option OutTarget) (transport : Request → TransportResult)
    (r : HTTPResponse)
    (ht : transport (buildRequest cfg method path none) = .response r)
    (h4 : 400 ≤ r.statusCode) :
    (∀ (kvs : List (String × Json)) (e : APIError),
      r.body = .wellFormed (.obj kvs) →
      unmarshalAPIError ⟨r.statusCode, "", []⟩ (.obj kvs) = .ok e →
      ((doRequest cfg method path none out transport).1 = .goError (.apiError e) ∧
       ((∀ kv ∈ kvs, lowerKey kv.1 ≠ "error") → e.Message = "") ∧
       ((∀ kv ∈ kvs, lowerKey kv.1 ≠ "details") → e.Details = []))) ∧
    (∀ raw : String, r.body = .malformed raw →
      (doRequest cfg method path none out transport).1 =
        .goError (.apiError ⟨r.statusCode, raw, []⟩)) := by
  constructor
  · intro kvs e hb hu
    refine ⟨?_, ?_, ?_⟩
    · show (doSend cfg method path none out transport).1 = .goError (.apiError e)
      unfold doSend
      rw [ht]
      dsimp only
      rw [if_pos h4, hb]
      dsimp only
      rw [show unmarshalAPIError ⟨r.statusCode, "", []⟩ (.obj kvs) =
            unmarshalFields ⟨r.statusCode, "", []⟩ kvs from rfl] at hu
      rw [show (unmarshalAPIError ⟨r.statusCode, "", []⟩ (.obj kvs) :
            Except String APIError) = unmarshalFields ⟨r.statusCode, "", []⟩ kvs
          from rfl, hu]
    · intro hk
      exact unmarshalFields_message kvs ⟨r.statusCode, "", []⟩ e hk hu
    · intro hk
      exact unmarshalFields_details kvs ⟨r.statusCode, "", []⟩ e hk hu
  · intro raw hb
    show (doSend cfg method path none out transport).1 =
      .goError (.apiError ⟨r.statusCode, raw, []⟩)
    unfold doSend
    rw [ht]
    dsimp only
    rw [if_pos h4, hb]

/-- C9 witness: a 422 body holding only a details member yields an
APIError with empty Message and the details map extracted in full. -/
theorem client_C9_witness :
    (doRequest ⟨"k", "https://api.monigo.co"⟩ "POST" "/v1/customers" none none
        (fun _ => .response ⟨422, .wellFormed
          (.obj [("details", .obj [("email", .str "invalid")])])⟩)).1 =
      .goError (.apiError ⟨422, "", [("email", "invalid")]⟩) :=
  ((client_C9 ⟨"k", "https://api.monigo.co"⟩ "POST" "/v1/customers" none
      (fun _ => .response ⟨422, .wellFormed
        (.obj [("details", .obj [("email", .str "invalid")])])⟩)
      ⟨422, .wellFormed (.obj [("details", .obj [("email", .str "invalid")])])⟩
      rfl (by decide)).1
    [("details", .obj [("email", .str "invalid")])]
    ⟨422, "", [("email", "invalid")]⟩ rfl (by rfl)).1

/-- The head of dropWhile never satisfies the dropped predicate. -/
theorem head_dropWhile_not (p : Char → Bool) (l : List Char) :
    ∀ a : Char, (l.dropWhile p).head? = some a → p a = false := by
  induction l with
  | nil => intro a h; simp [List.dropWhile] at h
  | cons c cs ih =>
    intro a h
    by_cases hc : p c = true
    · rw [List.dropWhile_cons_of_pos hc] at h
      exact ih a h
    · rw [List.dropWhile_cons_of_neg hc] at h
      simp at h
      subst h
      simpa using hc

/-- C10: the base URL stored by WithBaseURL is the argument with every
trailing slash removed: it has no trailing slash, the argument is the
stored URL followed by some run of slashes, and every request do builds
targets the stored URL concatenated with the path. -/
theorem client_C10 (u : String) (c : ClientConfig) :
    ((withBaseURL u c).baseURL.data.getLast? ≠ some '/') ∧
    (∃ n : Nat, u.data = (withBaseURL u c).baseURL.data ++ List.replicate n '/') ∧
    (∀ (method path : String) (bodyStr : Option String),
      (buildRequest (withBaseURL u c) method path bodyStr).url =
        (withBaseURL u c).baseURL ++ path) := by
  refine ⟨?_, ?_, fun _ _ _ => rfl⟩
  · intro hcontra
    have h1 : ((u.data.reverse.dropWhile fun ch => ch == '/').reverse).getLast? =
        some '/' := hcontra
    rw [List.getLast?_reverse] at h1
    have h2 := head_dropWhile_not (fun ch => ch == '/') u.data.reverse '/' h1
    simp at h2
  · refine ⟨(u.data.reverse.takeWhile fun ch => ch == '/').length, ?_⟩
    have hrep : (u.data.reverse.takeWhile fun ch => ch == '/') =
        List.replicate (u.data.reverse.takeWhile fun ch => ch == '/').length '/' :=
      List.eq_replicate_of_mem fun b hb => by
        simpa using List.mem_takeWhile_imp hb
    calc u.data = u.data.reverse.reverse := (List.reverse_reverse u.data).symm
    _ = ((u.data.reverse.takeWhile fun ch => ch == '/') ++
          (u.data.reverse.dropWhile fun ch => ch == '/')).reverse := by
        rw [List.takeWhile_append_dropWhile]
    _ = (u.data.reverse.dropWhile fun ch => ch == '/').reverse ++
          (u.data.reverse.takeWhile fun ch => ch == '/').reverse := by
        rw [List.reverse_append]
    _ = (withBaseURL u c).baseURL.data ++ List.replicate
          (u.data.reverse.takeWhile fun ch => ch == '/').length '/' := by
        rw [show (withBaseURL u c).baseURL.data =
              (u.data.reverse.dropWhile fun ch => ch == '/').reverse from rfl]
        rw [show ((u.data.reverse.takeWhile fun ch => ch == '/').reverse :
              List Char) = List.replicate
                (u.data.reverse.takeWhile fun ch => ch == '/').length '/' by
          rw [show ((u.data.reverse.takeWhile fun ch => ch == '/') :
                List Char).reverse = (List.replicate
                  (u.data.reverse.takeWhile fun ch => ch == '/').length '/').reverse by
            rw [← hrep]]
          exact List.reverse_replicate _ '/']

/-- C10 witness: a base URL with three trailing slashes is stored trimmed
and the built request URL is the trimmed base followed by the path. -/
theorem client_C10_witness :
    (buildRequest (withBaseURL "https://h///" ⟨"k", "d"⟩) "GET" "/p" none).url =
      (withBaseURL "https://h///" ⟨"k", "d"⟩).baseURL ++ "/p" :=
  (client_C10 "https://h///" ⟨"k", "d"⟩).2.2 "GET" "/p" none

end Monigo
